import Mathlib

/-!
Verification development for the ES-query-to-SQL translator (`es2sql.py`).

The source translates a nested JSON-like object (restricted Elasticsearch
query DSL: `bool`, `term`, `terms`, `exists`, `nested`) into a SQL boolean
expression string, driven by a per-field rule set
(ignore / field_map / value_map / eq2like / eq2reg / in2like / nn2empty).

Shallow embedding notes:
* JSON objects are association lists with string keys; key lookup takes the
  first matching entry (Python dicts have unique keys, so this is faithful).
* Python exceptions become an `Except` error value; the distinct raise sites
  of the source map to distinct `ESErr` constructors.  Recursion in the
  builder (`Bool` children, `Nested` sub-query) is expressed with a fuel
  parameter; the wrapper supplies `jsize v + 1` fuel, which certainly covers
  every recursion path since each recursive call descends to a structurally
  smaller object.
* Leaf values are restricted to strings, integers, and sequences thereof, as
  the source's documentation prescribes; other leaf types are rejected with
  an `unsupportedValue` error (the source would stringify them accidentally;
  its spec treats such inputs as unsupported).
* Rule-map truthiness of Python (`rule.m and rule.m.get(field, None)`) is
  modelled exactly: a boolean-valued rule applies iff the field maps to
  `true`; `field_map` entries mapping to the empty string and `value_map`
  entries mapping to the empty inner mapping are falsy and hence inert.
-/

/-- A scalar leaf value: a string or an integer. -/
inductive Scalar where
  | s : String → Scalar
  | i : Int → Scalar
deriving DecidableEq, Repr

/-- Python f-string interpolation of a scalar. -/
def scalarStr : Scalar → String
  | .s v => v
  | .i v => toString v

/-- A JSON-like input value. -/
inductive JVal where
  | str : String → JVal
  | int : Int → JVal
  | arr : List JVal → JVal
  | obj : List (String × JVal) → JVal

/-- First-match association-list lookup: Python `dict.get` / `dict[k]`. -/
def alookup {α β : Type} [DecidableEq α] : List (α × β) → α → Option β
  | [], _ => none
  | (k, v) :: rest, a => if a = k then some v else alookup rest a

/-- The rule set (`ESRule` in the source).  Boolean-valued maps model the
rules whose payload is only ever tested for truthiness. -/
structure ESRule where
  ignore : List (String × Bool) := []
  field_map : List (String × String) := []
  value_map : List (String × List (Scalar × Scalar)) := []
  eq2like : List (String × Bool) := []
  eq2reg : List (String × Bool) := []
  in2like : List (String × Bool) := []
  nn2empty : List (String × Bool) := []

/-- The empty rule set (`ESRule()` default). -/
def rule0 : ESRule := {}

/-- Truthiness of `m and m.get(field, None)` for a boolean-valued rule map. -/
def bget (m : List (String × Bool)) (f : String) : Bool :=
  (alookup m f).getD false

/-- Truthiness-filtered `field_map` lookup: an entry mapping to the empty
string is falsy in Python and therefore does not rename. -/
def fieldMapGet (m : List (String × String)) (f : String) : Option String :=
  match alookup m f with
  | some g => if g = "" then none else some g
  | none => none

/-- Truthiness-filtered `value_map` lookup: an entry whose inner mapping is
empty is falsy in Python and therefore does not rewrite values. -/
def valueMapGet (m : List (String × List (Scalar × Scalar))) (f : String) :
    Option (List (Scalar × Scalar)) :=
  match alookup m f with
  | some inner => if inner = [] then none else some inner
  | none => none

/-- The value stored on a `Term` node: a single scalar or a sequence. -/
inductive TValue where
  | sc : Scalar → TValue
  | seq : List Scalar → TValue
deriving DecidableEq, Repr

/-- The boolean connective of a `Bool` node. -/
inductive BConn where
  | filterC | mustC | mustNotC | shouldC
deriving DecidableEq, Repr

/-- The typed expression tree built by the parser. -/
inductive ESNode where
  | boolNode : BConn → List ESNode → ESNode
  | termNode : (field finalField : String) → TValue → ESNode
  | existsNode : String → ESNode
  | nestedNode : JVal → ESNode → ESNode

/-- Error values; each constructor corresponds to a raise site
(or a Python runtime error site) of the source. -/
inductive ESErr where
  | noFuel
  | classify : JVal → ESErr
  | boolParse : JVal → ESErr
  | boolSeq : JVal → ESErr
  | termShape
  | termValueKey
  | existsKey
  | nestedKey
  | unsupportedValue
  | valueKey : Scalar → ESErr

/-- Which node variant an object's keys select (`ESObj.get_class`):
first match over `bool`, `term`, `terms`, `exists`, `nested`. -/
inductive NodeTag where
  | boolT | termT | termsT | existsT | nestedT
deriving DecidableEq, Repr

/-- First-match classification scan of `ESObj.get_class`. -/
def classifyKey (kvs : List (String × JVal)) : Option (NodeTag × JVal) :=
  match alookup kvs "bool" with
  | some p => some (.boolT, p)
  | none =>
  match alookup kvs "term" with
  | some p => some (.termT, p)
  | none =>
  match alookup kvs "terms" with
  | some p => some (.termsT, p)
  | none =>
  match alookup kvs "exists" with
  | some p => some (.existsT, p)
  | none =>
  match alookup kvs "nested" with
  | some p => some (.nestedT, p)
  | none => none

/-- First-match connective scan of `Bool.parse` over
`filter`, `must`, `must_not`, `should`. -/
def connKey (bkvs : List (String × JVal)) : Option (BConn × JVal) :=
  match alookup bkvs "filter" with
  | some p => some (.filterC, p)
  | none =>
  match alookup bkvs "must" with
  | some p => some (.mustC, p)
  | none =>
  match alookup bkvs "must_not" with
  | some p => some (.mustNotC, p)
  | none =>
  match alookup bkvs "should" with
  | some p => some (.shouldC, p)
  | none => none

/-- Read a list of scalar leaf values; non-scalar elements are unsupported. -/
def scalarsOf : List JVal → Except ESErr (List Scalar)
  | [] => .ok []
  | .str v :: rest =>
    match scalarsOf rest with
    | .ok vs => .ok (.s v :: vs)
    | .error e => .error e
  | .int v :: rest =>
    match scalarsOf rest with
    | .ok vs => .ok (.i v :: vs)
    | .error e => .error e
  | _ :: _ => .error .unsupportedValue

/-- Value extraction of `Term.parse` (lines 142-147): a list payload is the
multi-value case; otherwise the payload must carry a `value` key. -/
def readTValue : JVal → Except ESErr TValue
  | .arr items =>
    match scalarsOf items with
    | .ok vs => .ok (.seq vs)
    | .error e => .error e
  | .obj ikvs =>
    match alookup ikvs "value" with
    | some (.str v) => .ok (.sc (.s v))
    | some (.int v) => .ok (.sc (.i v))
    | some (.arr items) =>
      match scalarsOf items with
      | .ok vs => .ok (.seq vs)
      | .error e => .error e
    | some _ => .error .unsupportedValue
    | none => .error .termValueKey
  | _ => .error .termValueKey

/-- Elementwise `value_map` inner-mapping lookup for a sequence value;
a missing value raises a key error (`inner[v]` in the source). -/
def mapValueLookup (inner : List (Scalar × Scalar)) :
    List Scalar → Except ESErr (List Scalar)
  | [] => .ok []
  | v :: vs =>
    match alookup inner v with
    | some t =>
      match mapValueLookup inner vs with
      | .ok ts => .ok (t :: ts)
      | .error e => .error e
    | none => .error (.valueKey v)

/-- Application of a truthy `value_map` entry to the stored value
(lines 156-160). -/
def applyValueMap (inner : List (Scalar × Scalar)) : TValue → Except ESErr TValue
  | .seq vs =>
    match mapValueLookup inner vs with
    | .ok ts => .ok (.seq ts)
    | .error e => .error e
  | .sc v =>
    match alookup inner v with
    | some t => .ok (.sc t)
    | none => .error (.valueKey v)

/-- `Term.parse`: take the first key of the payload as the field, extract the
value, resolve `field_map` and `value_map` eagerly and cache them on the
node.  The original field and the renamed field are both retained. -/
def parseTerm (rule : ESRule) : JVal → Except ESErr ESNode
  | .obj ((f, fv) :: _) =>
    match readTValue fv with
    | .error e => .error e
    | .ok raw =>
      let ff := match fieldMapGet rule.field_map f with
        | some g => g
        | none => f
      match (match valueMapGet rule.value_map f with
             | some inner => applyValueMap inner raw
             | none => .ok raw) with
      | .error e => .error e
      | .ok v => .ok (.termNode f ff v)
  | .obj [] => .error .termShape
  | _ => .error .termShape

/-- `Exists.parse`: the payload must carry a `field` key naming the field. -/
def parseExistsNode : JVal → Except ESErr ESNode
  | .obj kvs =>
    match alookup kvs "field" with
    | some (.str f) => .ok (.existsNode f)
    | some _ => .error .unsupportedValue
    | none => .error .existsKey
  | _ => .error .existsKey

mutual

/-- Fueled builder: `ESObj.get_class` dispatch plus the recursive parses of
`Bool` (children) and `Nested` (sub-query).  `Term`/`Terms` both dispatch to
`parseTerm` (the source's `Terms` class inherits everything from `Term`). -/
def buildF (rule : ESRule) : Nat → JVal → Except ESErr ESNode
  | 0, _ => .error .noFuel
  | n + 1, .obj kvs =>
    match classifyKey kvs with
    | none => .error (.classify (.obj kvs))
    | some (.boolT, payload) =>
      match payload with
      | .obj bkvs =>
        match connKey bkvs with
        | none => .error (.boolParse (.obj bkvs))
        | some (c, .arr items) =>
          match mapBuild rule n items with
          | .ok coll => .ok (.boolNode c coll)
          | .error e => .error e
        | some (_, _) => .error (.boolSeq payload)
      | _ => .error (.boolParse payload)
    | some (.termT, payload) => parseTerm rule payload
    | some (.termsT, payload) => parseTerm rule payload
    | some (.existsT, payload) => parseExistsNode payload
    | some (.nestedT, payload) =>
      match payload with
      | .obj nkvs =>
        match alookup nkvs "path" with
        | some p =>
          match alookup nkvs "query" with
          | some q =>
            match buildF rule n q with
            | .ok child => .ok (.nestedNode p child)
            | .error e => .error e
          | none => .error .nestedKey
        | none => .error .nestedKey
      | _ => .error .nestedKey
  | _ + 1, v => .error (.classify v)

/-- Build every child of a `Bool` node in order, failing on the first error
(the source's `for item in obj[tp]` loop). -/
def mapBuild (rule : ESRule) : Nat → List JVal → Except ESErr (List ESNode)
  | _, [] => .ok []
  | n, x :: xs =>
    match buildF rule n x with
    | .ok a =>
      match mapBuild rule n xs with
      | .ok rest => .ok (a :: rest)
      | .error e => .error e
    | .error e => .error e

end

mutual

/-- Structural size of a JSON value, used as the fuel bound. -/
def jsize : JVal → Nat
  | .str _ => 1
  | .int _ => 1
  | .arr l => 1 + jsizeL l
  | .obj kvs => 1 + jsizeO kvs

/-- Accumulated size of an array's elements. -/
def jsizeL : List JVal → Nat
  | [] => 0
  | x :: xs => jsize x + jsizeL xs

/-- Accumulated size of an object's entries. -/
def jsizeO : List (String × JVal) → Nat
  | [] => 0
  | (_, v) :: xs => jsize v + jsizeO xs

end

/-- Tree building with fuel that always suffices (every recursive call of the
source descends into a structurally smaller object). -/
def build (rule : ESRule) (v : JVal) : Except ESErr ESNode :=
  buildF rule (jsize v + 1) v

/-- `Term.to_sql`: ignore first, then the sequence branch (in2like / IN),
then the integer cast, then eq2like, eq2reg, and the default string equality.
Rule lookups use the original `field`; the emitted name is `finalField`. -/
def termToSql (rule : ESRule) (field finalField : String) (value : TValue) :
    String :=
  if bget rule.ignore field then "(1=1)"
  else
    match value with
    | .seq vs =>
      if bget rule.in2like field then
        "(" ++ String.intercalate " OR "
          (vs.map (fun v => "(" ++ finalField ++ " LIKE '%" ++ scalarStr v ++ "%')")) ++ ")"
      else
        "(" ++ finalField ++ " IN (" ++ String.intercalate ", "
          (vs.map (fun v => "'" ++ scalarStr v ++ "'")) ++ "))"
    | .sc (.i k) => "(CAST(" ++ finalField ++ " AS UInt8) = " ++ toString k ++ ")"
    | .sc (.s v) =>
      if bget rule.eq2like field then
        "(" ++ finalField ++ " LIKE '%" ++ v ++ "%')"
      else if bget rule.eq2reg field then
        "(" ++ finalField ++ " REGEXP '(?i).*" ++ v ++ ".*')"
      else
        "(" ++ finalField ++ " = '" ++ v ++ "')"

/-- `Exists.to_sql`: only the `nn2empty` rule is consulted, keyed on the
original (and only) field name. -/
def existsToSql (rule : ESRule) (field : String) : String :=
  if bget rule.nn2empty field then "(NOT " ++ field ++ " = '')"
  else "(" ++ field ++ " IS NOT NULL)"

mutual

/-- Rendering of a built node (`to_sql` of each class). -/
def nodeToSql (rule : ESRule) : ESNode → String
  | .boolNode .filterC coll =>
    "(" ++ String.intercalate " AND " (listToSql rule coll) ++ ")"
  | .boolNode .mustC coll =>
    "(" ++ String.intercalate " AND " (listToSql rule coll) ++ ")"
  | .boolNode .mustNotC coll =>
    "NOT (" ++ String.intercalate " AND " (listToSql rule coll) ++ ")"
  | .boolNode .shouldC coll =>
    "(" ++ String.intercalate " OR " (listToSql rule coll) ++ ")"
  | .termNode f ff v => termToSql rule f ff v
  | .existsNode f => existsToSql rule f
  | .nestedNode _ q => "(" ++ nodeToSql rule q ++ ")"

/-- Renderings of a list of children, in order. -/
def listToSql (rule : ESRule) : List ESNode → List String
  | [] => []
  | x :: xs => nodeToSql rule x :: listToSql rule xs

end

/-- End-to-end translation: build the tree, then render it. -/
def es2sql (rule : ESRule) (v : JVal) : Except ESErr String :=
  match build rule v with
  | .ok node => .ok (nodeToSql rule node)
  | .error e => .error e

/-- Whether `needle` occurs as a contiguous substring of `hay`. -/
def occursIn (needle hay : String) : Bool :=
  decide (needle.data <:+: hay.data)

/-- Whether an object carries one of the five recognized node keys. -/
def hasESKey (kvs : List (String × JVal)) : Bool :=
  (alookup kvs "bool").isSome || (alookup kvs "term").isSome ||
  (alookup kvs "terms").isSome || (alookup kvs "exists").isSome ||
  (alookup kvs "nested").isSome

/-- Whether a bool payload carries one of the four connective keys. -/
def hasConnKey (bkvs : List (String × JVal)) : Bool :=
  (alookup bkvs "filter").isSome || (alookup bkvs "must").isSome ||
  (alookup bkvs "must_not").isSome || (alookup bkvs "should").isSome

/-- Whether a value is an object carrying a recognized node key. -/
def hasRecognizedKey : JVal → Bool
  | .obj kvs => hasESKey kvs
  | _ => false

theorem classifyKey_none_iff (kvs : List (String × JVal)) :
    classifyKey kvs = none ↔ hasESKey kvs = false := by
  unfold classifyKey hasESKey
  cases alookup kvs "bool" <;> cases alookup kvs "term" <;>
    cases alookup kvs "terms" <;> cases alookup kvs "exists" <;>
    cases alookup kvs "nested" <;> simp

theorem connKey_none_iff (bkvs : List (String × JVal)) :
    connKey bkvs = none ↔ hasConnKey bkvs = false := by
  unfold connKey hasConnKey
  cases alookup bkvs "filter" <;> cases alookup bkvs "must" <;>
    cases alookup bkvs "must_not" <;> cases alookup bkvs "should" <;> simp

theorem listToSql_eq_map (rule : ESRule) (coll : List ESNode) :
    listToSql rule coll = coll.map (nodeToSql rule) := by
  induction coll with
  | nil => rfl
  | cons x xs ih => simp [listToSql, ih]

/-- C1: for every FieldEquals node, rule precedence follows
ignore, then numeric cast, then eq2like, then eq2reg, then the default
string equality, with only the first matching branch applying; with the
ignore rule set for the node's original field the rendered SQL is exactly
(1=1) regardless of value shape, overriding every other rendering. -/
theorem C1_term_rule_precedence (r : ESRule) (f ff : String) :
    (∀ v : TValue, bget r.ignore f = true → termToSql r f ff v = "(1=1)") ∧
    (∀ k : Int, bget r.ignore f = false →
      termToSql r f ff (.sc (.i k)) =
        "(CAST(" ++ ff ++ " AS UInt8) = " ++ toString k ++ ")") ∧
    (∀ s : String, bget r.ignore f = false → bget r.eq2like f = true →
      termToSql r f ff (.sc (.s s)) = "(" ++ ff ++ " LIKE '%" ++ s ++ "%')") ∧
    (∀ s : String, bget r.ignore f = false → bget r.eq2like f = false →
      bget r.eq2reg f = true →
      termToSql r f ff (.sc (.s s)) =
        "(" ++ ff ++ " REGEXP '(?i).*" ++ s ++ ".*')") ∧
    (∀ s : String, bget r.ignore f = false → bget r.eq2like f = false →
      bget r.eq2reg f = false →
      termToSql r f ff (.sc (.s s)) = "(" ++ ff ++ " = '" ++ s ++ "')") := by
  refine ⟨fun v h => ?_, fun k h => ?_, fun s h1 h2 => ?_,
    fun s h1 h2 h3 => ?_, fun s h1 h2 h3 => ?_⟩ <;>
    simp [termToSql, *]

/-- Witness for C1 at concrete rule sets and values: ignore wins even over a
sequence value with in2like set, the numeric cast wins over eq2like, eq2like
wins over eq2reg, eq2reg applies when eq2like is absent, and the default is
plain string equality. -/
theorem C1_term_rule_precedence_witness :
    termToSql { ignore := [("f", true)], in2like := [("f", true)] } "f" "g"
        (.seq [.i 1]) = "(1=1)" ∧
    termToSql { eq2like := [("f", true)], eq2reg := [("f", true)] } "f" "g"
        (.sc (.i 3)) = "(CAST(g AS UInt8) = 3)" ∧
    termToSql { eq2like := [("f", true)], eq2reg := [("f", true)] } "f" "g"
        (.sc (.s "v")) = "(g LIKE '%v%')" ∧
    termToSql { eq2reg := [("f", true)] } "f" "g"
        (.sc (.s "v")) = "(g REGEXP '(?i).*v.*')" ∧
    termToSql rule0 "f" "g" (.sc (.s "v")) = "(g = 'v')" :=
  ⟨(C1_term_rule_precedence _ "f" "g").1 (.seq [.i 1]) rfl,
   (C1_term_rule_precedence _ "f" "g").2.1 3 rfl,
   (C1_term_rule_precedence _ "f" "g").2.2.1 "v" rfl rfl,
   (C1_term_rule_precedence _ "f" "g").2.2.2.1 "v" rfl rfl rfl,
   (C1_term_rule_precedence rule0 "f" "g").2.2.2.2 "v" rfl rfl rfl⟩

theorem intercalate_pair (s a b : String) : String.intercalate s [a, b] = a ++ s ++ b := rfl

theorem mustNot_shape_ne (A B : String) :
    "NOT (" ++ A ++ " AND " ++ B ++ ")" ≠
      "(NOT " ++ A ++ ") AND (NOT " ++ B ++ ")" := by
  intro h
  have hl := congrArg String.length h
  simp only [String.length_append,
    show ("NOT (" : String).length = 5 from rfl,
    show (" AND " : String).length = 5 from rfl,
    show (")" : String).length = 1 from rfl,
    show ("(NOT " : String).length = 5 from rfl,
    show (") AND (NOT " : String).length = 11 from rfl] at hl
  omega

/-- C2: a BooleanGroup joins its children's renderings with " AND " for
filter/must and with " OR " for should, wrapped in parentheses; must_not
joins with " AND " and wraps as NOT (...), so for two children the output is
NOT (A AND B), which is never the string (NOT A) AND (NOT B). -/
theorem C2_bool_group_rendering (r : ESRule) :
    (∀ coll, nodeToSql r (.boolNode .filterC coll) =
      "(" ++ String.intercalate " AND " (coll.map (nodeToSql r)) ++ ")") ∧
    (∀ coll, nodeToSql r (.boolNode .mustC coll) =
      "(" ++ String.intercalate " AND " (coll.map (nodeToSql r)) ++ ")") ∧
    (∀ coll, nodeToSql r (.boolNode .shouldC coll) =
      "(" ++ String.intercalate " OR " (coll.map (nodeToSql r)) ++ ")") ∧
    (∀ coll, nodeToSql r (.boolNode .mustNotC coll) =
      "NOT (" ++ String.intercalate " AND " (coll.map (nodeToSql r)) ++ ")") ∧
    (∀ a b, nodeToSql r (.boolNode .mustNotC [a, b]) =
        "NOT (" ++ nodeToSql r a ++ " AND " ++ nodeToSql r b ++ ")" ∧
      nodeToSql r (.boolNode .mustNotC [a, b]) ≠
        "(NOT " ++ nodeToSql r a ++ ") AND (NOT " ++ nodeToSql r b ++ ")") := by
  refine ⟨fun coll => ?_, fun coll => ?_, fun coll => ?_, fun coll => ?_,
    fun a b => ?_⟩
  · simp [nodeToSql, listToSql_eq_map]
  · simp [nodeToSql, listToSql_eq_map]
  · simp [nodeToSql, listToSql_eq_map]
  · simp [nodeToSql, listToSql_eq_map]
  · have e : nodeToSql r (.boolNode .mustNotC [a, b]) =
        "NOT (" ++ nodeToSql r a ++ " AND " ++ nodeToSql r b ++ ")" := by
      simp [nodeToSql, listToSql, intercalate_pair, String.append_assoc]
    exact ⟨e, e ▸ mustNot_shape_ne (nodeToSql r a) (nodeToSql r b)⟩

/-- Witness for C2 at two concrete exists children. -/
theorem C2_bool_group_rendering_witness :
    nodeToSql rule0 (.boolNode .mustNotC [.existsNode "a", .existsNode "b"]) =
      "NOT ((a IS NOT NULL) AND (b IS NOT NULL))" ∧
    nodeToSql rule0 (.boolNode .mustNotC [.existsNode "a", .existsNode "b"]) ≠
      "(NOT (a IS NOT NULL)) AND (NOT (b IS NOT NULL))" :=
  (C2_bool_group_rendering rule0).2.2.2.2 (.existsNode "a") (.existsNode "b")

/-- Counterexample for C3: integer elements of a sequence value are NOT
emitted unquoted in the IN list; the source renders every IN element inside
single quotes, integers included. -/
theorem C3_counterexample :
    termToSql rule0 "a" "a" (.seq [.i 1, .i 2]) = "(a IN ('1', '2'))" ∧
    termToSql rule0 "a" "a" (.seq [.i 1, .i 2]) ≠ "(a IN (1, 2))" ∧
    occursIn "'1'" (termToSql rule0 "a" "a" (.seq [.i 1, .i 2])) = true := by
  refine ⟨by rfl, by decide, by rfl⟩

/-- C3 (amended): a single integer value is emitted unquoted in the CAST
equality form, but every element of a sequence value, integers included, is
emitted single-quoted in the IN list. -/
theorem C3_integer_rendering (r : ESRule) (f ff : String) :
    (∀ k : Int, bget r.ignore f = false →
      termToSql r f ff (.sc (.i k)) =
        "(CAST(" ++ ff ++ " AS UInt8) = " ++ toString k ++ ")") ∧
    (∀ vs : List Scalar, bget r.ignore f = false → bget r.in2like f = false →
      termToSql r f ff (.seq vs) =
        "(" ++ ff ++ " IN (" ++ String.intercalate ", "
          (vs.map (fun v => "'" ++ scalarStr v ++ "'")) ++ "))") := by
  constructor
  · intro k h; simp [termToSql, h]
  · intro vs h1 h2; simp [termToSql, h1, h2]

/-- Witness for C3 (amended) at a concrete integer and sequence. -/
theorem C3_integer_rendering_witness :
    termToSql rule0 "a" "a" (.sc (.i 7)) = "(CAST(a AS UInt8) = 7)" ∧
    termToSql rule0 "a" "a" (.seq [.i 1, .s "x"]) = "(a IN ('1', 'x'))" :=
  ⟨(C3_integer_rendering rule0 "a" "a").1 7 rfl,
   (C3_integer_rendering rule0 "a" "a").2 [.i 1, .s "x"] rfl rfl⟩

/-- Counterexample for C6: the path string CAN appear in the rendered output
when it coincides with other emitted text.  Here the nested node has path
"a" and its sub-query mentions field "a", so "a" occurs in the output. -/
theorem C6_counterexample :
    es2sql rule0 (.obj [("nested", .obj [("path", .str "a"),
        ("query", .obj [("term", .obj [("a", .obj [("value", .str "a")])])])])]) =
      .ok "((a = 'a'))" ∧
    occursIn "a" "((a = 'a'))" = true := by
  constructor
  · simp [es2sql, build, buildF, classifyKey, connKey, alookup, parseTerm,
      readTValue, fieldMapGet, valueMapGet, rule0, bget, nodeToSql, termToSql,
      jsize, jsizeL, jsizeO]
    rfl
  · rfl

/-- C6 (amended): a NestedGroup renders as exactly the wrapped sub-query's
rendering enclosed in one additional pair of parentheses; the path value is
not incorporated into the rendering (the output is the same for every path),
although the path string may coincide with text emitted for other reasons. -/
theorem C6_nested_rendering (r : ESRule) (p p' : JVal) (q : ESNode) :
    nodeToSql r (.nestedNode p q) = "(" ++ nodeToSql r q ++ ")" ∧
    nodeToSql r (.nestedNode p q) = nodeToSql r (.nestedNode p' q) := by
  constructor <;> simp [nodeToSql]

/-- C7: a payload classified under the key "terms" builds the very same node
as the same payload classified under "term" (the source's Terms class
inherits everything from Term), so the rendered SQL is identical. -/
theorem C7_terms_equals_term (r : ESRule) (p : JVal) :
    build r (.obj [("term", p)]) = build r (.obj [("terms", p)]) ∧
    es2sql r (.obj [("term", p)]) = es2sql r (.obj [("terms", p)]) := by
  have h1 : build r (.obj [("term", p)]) = parseTerm r p := by
    simp [build, buildF, classifyKey, alookup]
  have h2 : build r (.obj [("terms", p)]) = parseTerm r p := by
    simp [build, buildF, classifyKey, alookup]
  refine ⟨h1.trans h2.symm, ?_⟩
  simp [es2sql, h1, h2]

/-- C8: a FieldExists node renders with the original field name under every
rule set — only the nn2empty entry for that field influences the output, so
field_map (and every other mapping) never affects existence predicates. -/
theorem C8_exists_rendering (r r2 : ESRule) (f : String) :
    (existsToSql r f = "(NOT " ++ f ++ " = '')" ∨
      existsToSql r f = "(" ++ f ++ " IS NOT NULL)") ∧
    (bget r.nn2empty f = bget r2.nn2empty f → existsToSql r f = existsToSql r2 f) := by
  constructor
  · unfold existsToSql
    cases bget r.nn2empty f <;> simp
  · intro h; unfold existsToSql; rw [h]

/-- Witness for C8: with field_map renaming b to c but no nn2empty entry,
the exists rendering still uses the original field b. -/
theorem C8_exists_rendering_witness :
    existsToSql { field_map := [("b", "c")] } "b" = "(b IS NOT NULL)" ∧
    existsToSql { field_map := [("b", "c")] } "b" = existsToSql rule0 "b" := by
  have h := C8_exists_rendering { field_map := [("b", "c")] } rule0 "b"
  exact ⟨by rfl, h.2 rfl⟩

/-- C10: a bool payload whose connective key maps to an empty sequence
builds successfully and renders to "()" (or "NOT ()" for must_not). -/
theorem C10_empty_bool_children (r : ESRule) :
    es2sql r (.obj [("bool", .obj [("filter", .arr [])])]) = .ok "()" ∧
    es2sql r (.obj [("bool", .obj [("must", .arr [])])]) = .ok "()" ∧
    es2sql r (.obj [("bool", .obj [("should", .arr [])])]) = .ok "()" ∧
    es2sql r (.obj [("bool", .obj [("must_not", .arr [])])]) = .ok "NOT ()" := by
  refine ⟨?_, ?_, ?_, ?_⟩ <;>
    simp [es2sql, build, buildF, mapBuild, classifyKey, connKey, alookup,
      nodeToSql, listToSql, jsize, jsizeL, jsizeO, String.intercalate]

/-- C5: field renaming and value renaming are resolved at build time and
cached on the node (the node records the original field, the renamed field,
and the already-renamed value), every rendering-time rule lookup (ignore,
in2like, eq2like, eq2reg) keys off the original field name, and the renamed
field name is what appears in the emitted SQL. -/
theorem C5_build_time_renaming (r r2 : ESRule) (f g s : String) :
    (fieldMapGet r.field_map f = some g → valueMapGet r.value_map f = none →
      parseTerm r (.obj [(f, .obj [("value", .str s)])]) =
        .ok (.termNode f g (.sc (.s s)))) ∧
    (∀ inner t, valueMapGet r.value_map f = some inner →
      alookup inner (.s s) = some t → fieldMapGet r.field_map f = none →
      parseTerm r (.obj [(f, .obj [("value", .str s)])]) =
        .ok (.termNode f f (.sc t))) ∧
    (∀ (ff : String) (v : TValue), bget r.ignore f = bget r2.ignore f →
      bget r.in2like f = bget r2.in2like f →
      bget r.eq2like f = bget r2.eq2like f →
      bget r.eq2reg f = bget r2.eq2reg f →
      termToSql r f ff v = termToSql r2 f ff v) ∧
    (∀ ff : String, bget r.ignore f = false → bget r.eq2like f = false →
      bget r.eq2reg f = false →
      termToSql r f ff (.sc (.s s)) = "(" ++ ff ++ " = '" ++ s ++ "')") := by
  refine ⟨?_, ?_, ?_, ?_⟩
  · intro hfm hvm
    simp [parseTerm, readTValue, alookup, hfm, hvm]
  · intro inner t hvm hin hfm
    simp [parseTerm, readTValue, alookup, hfm, hvm, applyValueMap, hin]
  · intro ff v h1 h2 h3 h4
    simp only [termToSql, h1, h2, h3, h4]
  · intro ff h1 h2 h3
    simp [termToSql, h1, h2, h3]

/-- Witness for C5: renaming x to y is cached at build time; ignore keyed on
the original x applies after renaming; the renamed y appears in the SQL. -/
theorem C5_build_time_renaming_witness :
    parseTerm { field_map := [("x", "y")] } (.obj [("x", .obj [("value", .str "v")])]) =
      .ok (.termNode "x" "y" (.sc (.s "v"))) ∧
    parseTerm { value_map := [("x", [(.s "v", .s "w")])] }
        (.obj [("x", .obj [("value", .str "v")])]) =
      .ok (.termNode "x" "x" (.sc (.s "w"))) ∧
    termToSql { ignore := [("x", true)], field_map := [("x", "y")] } "x" "y" (.sc (.s "v")) =
      termToSql { ignore := [("x", true)], eq2like := [("y", true)] } "x" "y" (.sc (.s "v")) ∧
    termToSql { field_map := [("x", "y")] } "x" "y" (.sc (.s "v")) = "(y = 'v')" :=
  ⟨(C5_build_time_renaming { field_map := [("x", "y")] } rule0 "x" "y" "v").1 rfl rfl,
   (C5_build_time_renaming { value_map := [("x", [(.s "v", .s "w")])] } rule0
      "x" "y" "v").2.1 [(.s "v", .s "w")] (.s "w") rfl rfl rfl,
   (C5_build_time_renaming { ignore := [("x", true)], field_map := [("x", "y")] }
      { ignore := [("x", true)], eq2like := [("y", true)] } "x" "y" "v").2.2.1
      "y" (.sc (.s "v")) rfl rfl rfl rfl,
   (C5_build_time_renaming { field_map := [("x", "y")] } rule0 "x" "y" "v").2.2.2
      "y" rfl rfl rfl⟩

theorem mapValueLookup_missing (inner : List (Scalar × Scalar)) :
    ∀ (vs : List Scalar) (v : Scalar), v ∈ vs → alookup inner v = none →
      ∃ w, alookup inner w = none ∧
        mapValueLookup inner vs = .error (.valueKey w) := by
  intro vs
  induction vs with
  | nil => intro v hv; cases hv
  | cons x xs ih =>
    intro v hv hnone
    cases hx : alookup inner x with
    | none => exact ⟨x, hx, by simp [mapValueLookup, hx]⟩
    | some t =>
      have hv' : v ∈ xs := by
        rcases List.mem_cons.mp hv with h | h
        · subst h; rw [hx] at hnone; cases hnone
        · exact h
      obtain ⟨w, hw1, hw2⟩ := ih v hv' hnone
      exact ⟨w, hw1, by simp [mapValueLookup, hx, hw2]⟩

/-- C9: if the rule set's value_map has a non-empty entry for the node's
original field but the scalar value (or some element of the sequence value)
is absent from that inner mapping, tree building of the term fails with a
lookup-failure error and produces no node. -/
theorem C9_value_map_missing (r : ESRule) (f : String) (rest : List (String × JVal))
    (fv : JVal) (inner : List (Scalar × Scalar))
    (hmap : valueMapGet r.value_map f = some inner) :
    (∀ v, readTValue fv = .ok (.sc v) → alookup inner v = none →
      parseTerm r (.obj ((f, fv) :: rest)) = .error (.valueKey v)) ∧
    (∀ vs v, readTValue fv = .ok (.seq vs) → v ∈ vs → alookup inner v = none →
      ∃ w, alookup inner w = none ∧
        parseTerm r (.obj ((f, fv) :: rest)) = .error (.valueKey w)) := by
  constructor
  · intro v hread hnone
    simp [parseTerm, hread, hmap, applyValueMap, hnone]
  · intro vs v hread hv hnone
    obtain ⟨w, hw1, hw2⟩ := mapValueLookup_missing inner vs v hv hnone
    exact ⟨w, hw1, by simp [parseTerm, hread, hmap, applyValueMap, hw2]⟩

/-- Witness for C9: value_map maps only "a" for field x, so the value "z"
(scalar case) and the element "z" (sequence case) both fail the lookup. -/
theorem C9_value_map_missing_witness :
    parseTerm { value_map := [("x", [(.s "a", .s "b")])] }
        (.obj [("x", .obj [("value", .str "z")])]) =
      .error (.valueKey (.s "z")) ∧
    (∃ w, alookup [((Scalar.s "a"), Scalar.s "b")] w = none ∧
      parseTerm { value_map := [("x", [(.s "a", .s "b")])] }
        (.obj [("x", .arr [.str "z"])]) = .error (.valueKey w)) :=
  ⟨(C9_value_map_missing { value_map := [("x", [(.s "a", .s "b")])] } "x" []
      (.obj [("value", .str "z")]) [(.s "a", .s "b")] rfl).1 (.s "z") rfl rfl,
   (C9_value_map_missing { value_map := [("x", [(.s "a", .s "b")])] } "x" []
      (.arr [.str "z"]) [(.s "a", .s "b")] rfl).2 [.s "z"] (.s "z") rfl
      (List.mem_singleton.mpr rfl) rfl⟩

theorem scalarsOf_error_eq :
    ∀ {items : List JVal} {e : ESErr}, scalarsOf items = .error e →
      e = .unsupportedValue := by
  intro items
  induction items with
  | nil => intro e h; simp [scalarsOf] at h
  | cons x rest ih =>
    intro e h
    cases x with
    | str v =>
      simp only [scalarsOf] at h
      cases hr : scalarsOf rest with
      | ok vs => rw [hr] at h; simp at h
      | error e2 => rw [hr] at h; simp at h; subst h; exact ih hr
    | int v =>
      simp only [scalarsOf] at h
      cases hr : scalarsOf rest with
      | ok vs => rw [hr] at h; simp at h
      | error e2 => rw [hr] at h; simp at h; subst h; exact ih hr
    | arr l => simp [scalarsOf] at h; subst h; rfl
    | obj kvs => simp [scalarsOf] at h; subst h; rfl

theorem readTValue_error_eq {fv : JVal} {e : ESErr}
    (h : readTValue fv = .error e) :
    e = .unsupportedValue ∨ e = .termValueKey := by
  cases fv with
  | str v => simp [readTValue] at h; subst h; right; rfl
  | int v => simp [readTValue] at h; subst h; right; rfl
  | arr items =>
    simp only [readTValue] at h
    cases hr : scalarsOf items with
    | ok vs => rw [hr] at h; simp at h
    | error e2 => rw [hr] at h; simp at h; subst h; left; exact scalarsOf_error_eq hr
  | obj ikvs =>
    simp only [readTValue] at h
    cases hl : alookup ikvs "value" with
    | none => rw [hl] at h; simp at h; subst h; right; rfl
    | some sv =>
      rw [hl] at h
      cases sv with
      | str v => simp at h
      | int v => simp at h
      | arr items =>
        simp only at h
        cases hr : scalarsOf items with
        | ok vs => rw [hr] at h; simp at h
        | error e2 => rw [hr] at h; simp at h; subst h; left; exact scalarsOf_error_eq hr
      | obj o => simp at h; subst h; left; rfl

theorem mapValueLookup_error_eq {inner : List (Scalar × Scalar)} :
    ∀ {vs : List Scalar} {e : ESErr}, mapValueLookup inner vs = .error e →
      ∃ v, e = .valueKey v := by
  intro vs
  induction vs with
  | nil => intro e h; simp [mapValueLookup] at h
  | cons x xs ih =>
    intro e h
    simp only [mapValueLookup] at h
    cases hx : alookup inner x with
    | none => rw [hx] at h; simp at h; exact ⟨x, h.symm⟩
    | some t =>
      rw [hx] at h
      cases hr : mapValueLookup inner xs with
      | ok ts => rw [hr] at h; simp at h
      | error e2 => rw [hr] at h; simp at h; subst h; exact ih hr

theorem applyValueMap_error_eq {inner : List (Scalar × Scalar)} {raw : TValue}
    {e : ESErr} (h : applyValueMap inner raw = .error e) :
    ∃ v, e = .valueKey v := by
  cases raw with
  | seq vs =>
    simp only [applyValueMap] at h
    cases hr : mapValueLookup inner vs with
    | ok ts => rw [hr] at h; simp at h
    | error e2 => rw [hr] at h; simp at h; subst h; exact mapValueLookup_error_eq hr
  | sc v =>
    simp only [applyValueMap] at h
    cases hl : alookup inner v with
    | none => rw [hl] at h; simp at h; exact ⟨v, h.symm⟩
    | some t => rw [hl] at h; simp at h

theorem parseTerm_error_eq {r : ESRule} {p : JVal} {e : ESErr}
    (h : parseTerm r p = .error e) :
    e = .termShape ∨ e = .termValueKey ∨ e = .unsupportedValue ∨
      ∃ v, e = .valueKey v := by
  cases p with
  | str v => simp [parseTerm] at h; subst h; left; rfl
  | int v => simp [parseTerm] at h; subst h; left; rfl
  | arr l => simp [parseTerm] at h; subst h; left; rfl
  | obj kvs =>
    cases kvs with
    | nil => simp [parseTerm] at h; subst h; left; rfl
    | cons kv rest =>
      obtain ⟨f, fv⟩ := kv
      simp only [parseTerm] at h
      cases hr : readTValue fv with
      | error e2 =>
        rw [hr] at h; simp at h; subst h
        rcases readTValue_error_eq hr with h2 | h2
        · right; right; left; exact h2
        · right; left; exact h2
      | ok raw =>
        rw [hr] at h
        simp only at h
        cases hv : valueMapGet r.value_map f with
        | none => rw [hv] at h; simp at h
        | some inner =>
          rw [hv] at h
          simp only at h
          cases ha : applyValueMap inner raw with
          | ok v2 => rw [ha] at h; simp at h
          | error e2 =>
            rw [ha] at h; simp at h; subst h
            right; right; right; exact applyValueMap_error_eq ha

theorem parseExistsNode_error_eq {p : JVal} {e : ESErr}
    (h : parseExistsNode p = .error e) :
    e = .existsKey ∨ e = .unsupportedValue := by
  cases p with
  | str v => simp [parseExistsNode] at h; subst h; left; rfl
  | int v => simp [parseExistsNode] at h; subst h; left; rfl
  | arr l => simp [parseExistsNode] at h; subst h; left; rfl
  | obj kvs =>
    simp only [parseExistsNode] at h
    cases hl : alookup kvs "field" with
    | none => rw [hl] at h; simp at h; subst h; left; rfl
    | some fv =>
      rw [hl] at h
      cases fv <;> simp at h <;> subst h <;> right <;> rfl

theorem buildF_classify_inv (r : ESRule) :
    ∀ n, (∀ v o, buildF r n v = .error (.classify o) →
            hasRecognizedKey o = false) ∧
         (∀ l o, mapBuild r n l = .error (.classify o) →
            hasRecognizedKey o = false) := by
  intro n
  induction n with
  | zero =>
    constructor
    · intro v o h; simp [buildF] at h
    · intro l o h
      cases l with
      | nil => simp [mapBuild] at h
      | cons x xs => simp [mapBuild, buildF] at h
  | succ n ih =>
    have hP : ∀ v o, buildF r (n + 1) v = .error (.classify o) →
        hasRecognizedKey o = false := by
      intro v o h
      cases v with
      | str v2 => simp [buildF] at h; subst h; rfl
      | int v2 => simp [buildF] at h; subst h; rfl
      | arr l => simp [buildF] at h; subst h; rfl
      | obj kvs =>
        simp only [buildF] at h
        cases hc : classifyKey kvs with
        | none =>
          rw [hc] at h; simp at h; rw [← h]
          simp only [hasRecognizedKey]
          exact (classifyKey_none_iff kvs).mp hc
        | some tp =>
          obtain ⟨tag, payload⟩ := tp
          rw [hc] at h
          cases tag with
          | boolT =>
            cases payload with
            | str v2 => simp at h
            | int v2 => simp at h
            | arr l => simp at h
            | obj bkvs =>
              cases hcn : connKey bkvs with
              | none => simp [hcn] at h
              | some cp =>
                obtain ⟨c, pl⟩ := cp
                cases pl with
                | str v2 => simp [hcn] at h
                | int v2 => simp [hcn] at h
                | obj o2 => simp [hcn] at h
                | arr items =>
                  cases hm : mapBuild r n items with
                  | ok coll => simp [hcn, hm] at h
                  | error e =>
                    simp [hcn, hm] at h
                    exact ih.2 items o (by rw [hm, h])
          | termT =>
            simp only at h
            rcases parseTerm_error_eq h with h2 | h2 | h2 | ⟨w, h2⟩ <;> simp at h2
          | termsT =>
            simp only at h
            rcases parseTerm_error_eq h with h2 | h2 | h2 | ⟨w, h2⟩ <;> simp at h2
          | existsT =>
            simp only at h
            rcases parseExistsNode_error_eq h with h2 | h2 <;> simp at h2
          | nestedT =>
            cases payload with
            | str v2 => simp at h
            | int v2 => simp at h
            | arr l => simp at h
            | obj nkvs =>
              cases hp : alookup nkvs "path" with
              | none => simp [hp] at h
              | some p =>
                cases hq : alookup nkvs "query" with
                | none => simp [hp, hq] at h
                | some q =>
                  cases hb : buildF r n q with
                  | ok child => simp [hp, hq, hb] at h
                  | error e =>
                    simp [hp, hq, hb] at h
                    exact ih.1 q o (by rw [hb, h])
    refine ⟨hP, ?_⟩
    intro l
    induction l with
    | nil => intro o h; simp [mapBuild] at h
    | cons x xs ihl =>
      intro o h
      simp only [mapBuild] at h
      cases hx : buildF r (n + 1) x with
      | error e =>
        rw [hx] at h; simp at h
        exact hP x o (by rw [hx, h])
      | ok a =>
        rw [hx] at h
        simp only at h
        cases hm : mapBuild r (n + 1) xs with
        | ok rest => rw [hm] at h; simp at h
        | error e =>
          rw [hm] at h; simp at h
          exact ihl o (by rw [hm, h])

/-- C4: tree building fails immediately with a structural error carrying the
offending object and produces no tree (an error result carries no node): an
object with none of the five keys bool/term/terms/exists/nested yields the
classification error for exactly that object; a bool payload with none of
the four connective keys filter/must/must_not/should yields the bool parse
error carrying that payload; and conversely every classification error
carries an object with no recognized key, so building an object that does
contain a recognized key never raises the classification error for it. -/
theorem C4_structural_errors (r : ESRule) (kvs bkvs : List (String × JVal)) :
    (hasESKey kvs = false →
      build r (.obj kvs) = .error (.classify (.obj kvs))) ∧
    (hasConnKey bkvs = false →
      build r (.obj [("bool", .obj bkvs)]) = .error (.boolParse (.obj bkvs))) ∧
    (∀ n v o, buildF r n v = .error (.classify o) →
      hasRecognizedKey o = false) := by
  refine ⟨?_, ?_, fun n => (buildF_classify_inv r n).1⟩
  · intro hk
    have hc : classifyKey kvs = none := (classifyKey_none_iff kvs).mpr hk
    simp [build, buildF, hc]
  · intro hk
    have hc : connKey bkvs = none := (connKey_none_iff bkvs).mpr hk
    simp [build, buildF, classifyKey, alookup, hc]

/-- Witness for C4: an object with only an unrecognized key fails with the
classification error carrying it; a bool payload with no connective key
fails with the bool parse error carrying it. -/
theorem C4_structural_errors_witness :
    build rule0 (.obj [("foo", .int 1)]) =
      .error (.classify (.obj [("foo", .int 1)])) ∧
    build rule0 (.obj [("bool", .obj [("x", .arr [])])]) =
      .error (.boolParse (.obj [("x", .arr [])])) :=
  ⟨(C4_structural_errors rule0 [("foo", .int 1)] [("x", .arr [])]).1 rfl,
   (C4_structural_errors rule0 [("foo", .int 1)] [("x", .arr [])]).2.1 rfl⟩
